import Mathlib

/-!
Shallow embedding of `src/wfp1040.py` (WFP private-transporters cargo
allocation script, built on PuLP).

The script builds one mixed-integer linear model `prob`:
variables `x[i][j] ≥ 0` (continuous tons), `y[i][j]` (binary),
`u[i] ≥ 0`, `v[i] ≥ 0` (absolute-deviation helpers); constraints are the
per-site demand equalities, the linking constraints with the hardcoded
bounds `10` and `50`, and the two-sided deviation inequalities; the
objective is `alpha * Σ u[i] + beta * Σ v[i]` with `alpha = 1.0`,
`beta = 0.001`, minimized.  After `prob.solve` the script reads the `x`
values back and recomputes row sums and revenue rows (lines 68-70).

Linear expressions and constraints are embedded as explicit data (lists
of coefficient/variable pairs plus a constant), so that the constraint
set of the built model is itself an inspectable list, exactly mirroring
the `prob += ...` statements of the script.  Numbers are rationals.
-/

namespace WFP

/-- Comparison operator of one linear constraint, as written in the script
with `<=`, `>=`, `==` on PuLP affine expressions. -/
inductive Cmp where
  | le
  | ge
  | eq
deriving DecidableEq, Repr

/-- Optimization sense of the model; the script passes `pulp.LpMinimize`
(line 24). -/
inductive Sense where
  | minimize
  | maximize
deriving DecidableEq, Repr

/-- Decision variables of the script: `x_{i}_{j}` (line 27), `y_{i}_{j}`
(line 30), `u_{i}` (line 34), `v_{i}` (line 35), for `n` transporters and
`m` sites. -/
inductive Var (n m : ℕ) where
  | x (i : Fin n) (j : Fin m)
  | y (i : Fin n) (j : Fin m)
  | u (i : Fin n)
  | v (i : Fin n)
deriving DecidableEq

/-- Affine expression: a list of (coefficient, variable) pairs plus a
constant, the shape of a PuLP `LpAffineExpression`. -/
structure LinExpr (n m : ℕ) where
  coeffs : List (ℚ × Var n m)
  const : ℚ
deriving DecidableEq

/-- One linear constraint `lhs cmp rhs` as the script states them with
`prob += ...`. -/
structure Constraint (n m : ℕ) where
  lhs : LinExpr n m
  cmp : Cmp
  rhs : LinExpr n m
deriving DecidableEq

/-- The built model: sense, constraint list (in insertion order of the
script) and objective expression — the content of the `prob` object. -/
structure Model (n m : ℕ) where
  sense : Sense
  constraints : List (Constraint n m)
  objective : LinExpr n m

/-- Input data of the script: site demands `S` (line 10), per-site rates
`r` (line 11), transporter quota fractions `p` (lines 14-15); `m` sites
and `n` transporters (lines 6-7). -/
structure Dataset (m n : ℕ) where
  S : Fin m → ℚ
  r : Fin m → ℚ
  p : Fin n → ℚ

/-- Upper linking bound hardcoded in the script, line 44: `x[i][j] <= 50 * y[i][j]`. -/
def maxPerAssignment : ℚ := 50

/-- Lower linking bound hardcoded in the script, line 45: `x[i][j] >= 10 * y[i][j]`. -/
def minPerAssignment : ℚ := 10

/-- Tonnage-deviation weight, line 60: `alpha = 1.0`. -/
def alpha : ℚ := 1

/-- Revenue-deviation weight, line 61: `beta = 0.001`. -/
def beta : ℚ := 1 / 1000

/-- Numeric tolerance `ε` (default `1e-6`) used by the spec for solved
assignments. -/
def eps : ℚ := 1 / 1000000

/-- Total demand, line 18: `T = sum(S)`. -/
def T (D : Dataset m n) : ℚ := ((List.finRange m).map D.S).sum

/-- Total revenue, line 19: `R = sum(S[j] * r[j] for j in range(m))`. -/
def R (D : Dataset m n) : ℚ := ((List.finRange m).map (fun j => D.S j * D.r j)).sum

/-- Target tons per transporter, line 20: `t[i] = p[i] * T`. -/
def t (D : Dataset m n) (i : Fin n) : ℚ := D.p i * T D

/-- Target revenue per transporter, line 21: `q[i] = p[i] * R`. -/
def q (D : Dataset m n) (i : Fin n) : ℚ := D.p i * R D

/-- A candidate valuation of all decision variables (what the solver
returns: one rational per variable). -/
structure Assignment (n m : ℕ) where
  x : Fin n → Fin m → ℚ
  y : Fin n → Fin m → ℚ
  u : Fin n → ℚ
  v : Fin n → ℚ

/-- Value of one variable under an assignment. -/
def evalVar (a : Assignment n m) : Var n m → ℚ
  | Var.x i j => a.x i j
  | Var.y i j => a.y i j
  | Var.u i => a.u i
  | Var.v i => a.v i

/-- Value of an affine expression under an assignment. -/
def LinExpr.eval (e : LinExpr n m) (a : Assignment n m) : ℚ :=
  (e.coeffs.map (fun cv => cv.1 * evalVar a cv.2)).sum + e.const

/-- Expression `pulp.lpSum(x[i][j] for i in range(n))` for a fixed site `j`
(line 39). -/
def sumXcol (n : ℕ) (j : Fin m) : LinExpr n m :=
  ⟨(List.finRange n).map (fun i => ((1 : ℚ), Var.x i j)), 0⟩

/-- Constant expression (a bare number on the right of `==`). -/
def constE (n m : ℕ) (c : ℚ) : LinExpr n m := ⟨[], c⟩

/-- Demand-coverage constraint for site `j`, line 39:
`lpSum(x[i][j] for i in range(n)) == S[j]`. -/
def coverageConstraint (D : Dataset m n) (j : Fin m) : Constraint n m :=
  ⟨sumXcol n j, Cmp.eq, constE n m (D.S j)⟩

/-- Upper linking constraint, line 44: `x[i][j] <= 50 * y[i][j]`. -/
def upperLink (i : Fin n) (j : Fin m) : Constraint n m :=
  ⟨⟨[((1 : ℚ), Var.x i j)], 0⟩, Cmp.le, ⟨[(maxPerAssignment, Var.y i j)], 0⟩⟩

/-- Lower linking constraint, line 45: `x[i][j] >= 10 * y[i][j]`. -/
def lowerLink (i : Fin n) (j : Fin m) : Constraint n m :=
  ⟨⟨[((1 : ℚ), Var.x i j)], 0⟩, Cmp.ge, ⟨[(minPerAssignment, Var.y i j)], 0⟩⟩

/-- Bare `u[i]` as an expression. -/
def uVarE (m : ℕ) (i : Fin n) : LinExpr n m := ⟨[((1 : ℚ), Var.u i)], 0⟩

/-- Bare `v[i]` as an expression. -/
def vVarE (m : ℕ) (i : Fin n) : LinExpr n m := ⟨[((1 : ℚ), Var.v i)], 0⟩

/-- First tonnage-deviation constraint, line 50:
`u[i] >= total_tons - t[i]` where `total_tons = lpSum(x[i][j] for j)`. -/
def tonnageDevA (D : Dataset m n) (i : Fin n) : Constraint n m :=
  ⟨uVarE m i, Cmp.ge, ⟨(List.finRange m).map (fun j => ((1 : ℚ), Var.x i j)), -(t D i)⟩⟩

/-- Second tonnage-deviation constraint, line 51:
`u[i] >= -(total_tons - t[i])`. -/
def tonnageDevB (D : Dataset m n) (i : Fin n) : Constraint n m :=
  ⟨uVarE m i, Cmp.ge, ⟨(List.finRange m).map (fun j => ((-1 : ℚ), Var.x i j)), t D i⟩⟩

/-- First revenue-deviation constraint, line 56:
`v[i] >= total_rev - q[i]` where `total_rev = lpSum(r[j] * x[i][j] for j)`. -/
def revenueDevA (D : Dataset m n) (i : Fin n) : Constraint n m :=
  ⟨vVarE m i, Cmp.ge, ⟨(List.finRange m).map (fun j => (D.r j, Var.x i j)), -(q D i)⟩⟩

/-- Second revenue-deviation constraint, line 57:
`v[i] >= -(total_rev - q[i])`. -/
def revenueDevB (D : Dataset m n) (i : Fin n) : Constraint n m :=
  ⟨vVarE m i, Cmp.ge, ⟨(List.finRange m).map (fun j => (-(D.r j), Var.x i j)), q D i⟩⟩

/-- Objective expression, line 62:
`alpha * lpSum(u[i] for i) + beta * lpSum(v[i] for i)`. -/
def objectiveE (n m : ℕ) : LinExpr n m :=
  ⟨((List.finRange n).map (fun i => (alpha, Var.u i)))
     ++ ((List.finRange n).map (fun i => (beta, Var.v i))), 0⟩

/-- The model the script builds in lines 24-62: minimization, the four
constraint families in script order, and the weighted-deviation objective. -/
def prob (D : Dataset m n) : Model n m :=
  { sense := Sense.minimize
    constraints :=
      ((List.finRange m).map (coverageConstraint D))
        ++ ((List.finRange n).flatMap (fun i =>
              (List.finRange m).flatMap (fun j => [upperLink i j, lowerLink i j])))
        ++ ((List.finRange n).flatMap (fun i => [tonnageDevA D i, tonnageDevB D i]))
        ++ ((List.finRange n).flatMap (fun i => [revenueDevA D i, revenueDevB D i]))
    objective := objectiveE n m }

/-- Satisfaction of one constraint by an assignment. -/
def constrHolds (a : Assignment n m) (C : Constraint n m) : Prop :=
  match C.cmp with
  | Cmp.le => C.lhs.eval a ≤ C.rhs.eval a
  | Cmp.ge => C.rhs.eval a ≤ C.lhs.eval a
  | Cmp.eq => C.lhs.eval a = C.rhs.eval a

instance (a : Assignment n m) (C : Constraint n m) : Decidable (constrHolds a C) := by
  unfold constrHolds
  cases C.cmp <;> infer_instance

/-- Variable-declaration bounds of the script: `x` has `lowBound=0`
(line 27), `y` is `Binary` (line 30), `u` and `v` have `lowBound=0`
(lines 34-35). -/
def VarBounds (a : Assignment n m) : Prop :=
  (∀ i j, 0 ≤ a.x i j) ∧ (∀ i j, a.y i j = 0 ∨ a.y i j = 1)
    ∧ (∀ i, 0 ≤ a.u i) ∧ (∀ i, 0 ≤ a.v i)

/-- Feasibility for the built model: the declaration bounds together with
every constraint the script added to `prob`. -/
def Feasible (D : Dataset m n) (a : Assignment n m) : Prop :=
  VarBounds a ∧ ∀ C ∈ (prob D).constraints, constrHolds a C

/-- Objective value of an assignment under the built model. -/
def objVal (D : Dataset m n) (a : Assignment n m) : ℚ :=
  (prob D).objective.eval a

/-- Optimality: feasible and of minimal objective value among feasible
assignments (the script minimizes, line 24). -/
def Optimal (D : Dataset m n) (a : Assignment n m) : Prop :=
  Feasible D a ∧ ∀ b : Assignment n m, Feasible D b → objVal D a ≤ objVal D b

/-- Row tonnage `Σ_j x[i][j]` of transporter `i` (line 49 / line 69). -/
def rowTons (a : Assignment n m) (i : Fin n) : ℚ :=
  ((List.finRange m).map (fun j => a.x i j)).sum

/-- Row revenue `Σ_j r[j] * x[i][j]` of transporter `i` (line 55 / line 70). -/
def rowRev (D : Dataset m n) (a : Assignment n m) (i : Fin n) : ℚ :=
  ((List.finRange m).map (fun j => D.r j * a.x i j)).sum

/-- Column sum `Σ_i x[i][j]` at site `j` (line 39). -/
def colSum (a : Assignment n m) (j : Fin m) : ℚ :=
  ((List.finRange n).map (fun i => a.x i j)).sum

/-- Result of the extraction block, lines 68-70: the matrix of raw `x`
values, its row sums, and the rate-weighted row sums. -/
structure AllocationResult (n m : ℕ) where
  x_sol : Fin n → Fin m → ℚ
  tons_assigned : Fin n → ℚ
  revenue_assigned : Fin n → ℚ

/-- Extraction, lines 68-70: `x_sol` is read directly from the raw
variable values (`pulp.value`), `tons_assigned = x_sol.sum(axis=1)`,
`revenue_assigned = (x_sol * r).sum(axis=1)`.  No clamping, no
verification, no failure path appears in the source. -/
def extract (rates : Fin m → ℚ) (raw : Fin n → Fin m → ℚ) : AllocationResult n m :=
  { x_sol := raw
    tons_assigned := fun i => ((List.finRange m).map (fun j => raw i j)).sum
    revenue_assigned := fun i => ((List.finRange m).map (fun j => raw i j * rates j)).sum }

/-- Solver status as reported by the backend after `prob.solve` (line 65). -/
inductive SolverStatus where
  | optimal
  | infeasible
  | unbounded
  | notSolved
deriving DecidableEq, Repr

/-- What the script does after `prob.solve` returns (lines 65-70): it
proceeds to extraction unconditionally — the returned status is never
inspected, so extraction happens even on an infeasible report. -/
def afterSolve (D : Dataset m n) (_st : SolverStatus) (raw : Fin n → Fin m → ℚ) :
    AllocationResult n m :=
  extract D.r raw

/-- Possible outcomes of model building claimed by the spec. -/
inductive BuildOutcome (n m : ℕ) where
  | built (M : Model n m)
  | validationError

/-- Model building as the script performs it (lines 24-62): the model is
constructed unconditionally; the source contains no validation check and
no exception, so the outcome is always `built`. -/
def build (D : Dataset m n) : BuildOutcome n m :=
  BuildOutcome.built (prob D)

/-! ### Bridge lemmas: evaluating the embedded expressions -/

lemma list_map_sum (k : ℕ) (f : Fin k → ℚ) :
    ((List.finRange k).map f).sum = ∑ i, f i :=
  (Fin.sum_univ_def f).symm

lemma sumXcol_eval (a : Assignment n m) (j : Fin m) :
    (sumXcol n j).eval a = colSum a j := by
  simp [sumXcol, LinExpr.eval, colSum, List.map_map, Function.comp_def, evalVar]

lemma constE_eval (a : Assignment n m) (c : ℚ) : (constE n m c).eval a = c := by
  simp [constE, LinExpr.eval]

lemma uVarE_eval (a : Assignment n m) (i : Fin n) : (uVarE m i).eval a = a.u i := by
  simp [uVarE, LinExpr.eval, evalVar]

lemma vVarE_eval (a : Assignment n m) (i : Fin n) : (vVarE m i).eval a = a.v i := by
  simp [vVarE, LinExpr.eval, evalVar]

lemma tonnageDevA_rhs_eval (D : Dataset m n) (a : Assignment n m) (i : Fin n) :
    (tonnageDevA D i).rhs.eval a = rowTons a i - t D i := by
  simp [tonnageDevA, LinExpr.eval, rowTons, List.map_map, Function.comp_def, evalVar,
    sub_eq_add_neg]

lemma tonnageDevB_rhs_eval (D : Dataset m n) (a : Assignment n m) (i : Fin n) :
    (tonnageDevB D i).rhs.eval a = t D i - rowTons a i := by
  simp only [tonnageDevB, LinExpr.eval, rowTons, List.map_map, Function.comp_def, evalVar]
  rw [list_map_sum, list_map_sum, sub_eq_add_neg, add_comm, ← Finset.sum_neg_distrib]
  simp

lemma revenueDevA_rhs_eval (D : Dataset m n) (a : Assignment n m) (i : Fin n) :
    (revenueDevA D i).rhs.eval a = rowRev D a i - q D i := by
  simp [revenueDevA, LinExpr.eval, rowRev, List.map_map, Function.comp_def, evalVar,
    sub_eq_add_neg]

lemma revenueDevB_rhs_eval (D : Dataset m n) (a : Assignment n m) (i : Fin n) :
    (revenueDevB D i).rhs.eval a = q D i - rowRev D a i := by
  simp only [revenueDevB, LinExpr.eval, rowRev, List.map_map, Function.comp_def, evalVar]
  rw [list_map_sum, list_map_sum, sub_eq_add_neg, add_comm, ← Finset.sum_neg_distrib]
  simp

lemma upperLink_holds_iff (a : Assignment n m) (i : Fin n) (j : Fin m) :
    constrHolds a (upperLink i j) ↔ a.x i j ≤ maxPerAssignment * a.y i j := by
  simp [constrHolds, upperLink, LinExpr.eval, evalVar]

lemma lowerLink_holds_iff (a : Assignment n m) (i : Fin n) (j : Fin m) :
    constrHolds a (lowerLink i j) ↔ minPerAssignment * a.y i j ≤ a.x i j := by
  simp [constrHolds, lowerLink, LinExpr.eval, evalVar]

lemma coverage_holds_iff (D : Dataset m n) (a : Assignment n m) (j : Fin m) :
    constrHolds a (coverageConstraint D j) ↔ colSum a j = D.S j := by
  simp [constrHolds, coverageConstraint, sumXcol_eval, constE_eval]

lemma tonnageDevA_holds_iff (D : Dataset m n) (a : Assignment n m) (i : Fin n) :
    constrHolds a (tonnageDevA D i) ↔ rowTons a i - t D i ≤ a.u i := by
  have h : constrHolds a (tonnageDevA D i) ↔
      (tonnageDevA D i).rhs.eval a ≤ (tonnageDevA D i).lhs.eval a := Iff.rfl
  rw [h, tonnageDevA_rhs_eval, show (tonnageDevA D i).lhs = uVarE m i from rfl, uVarE_eval]

lemma tonnageDevB_holds_iff (D : Dataset m n) (a : Assignment n m) (i : Fin n) :
    constrHolds a (tonnageDevB D i) ↔ t D i - rowTons a i ≤ a.u i := by
  have h : constrHolds a (tonnageDevB D i) ↔
      (tonnageDevB D i).rhs.eval a ≤ (tonnageDevB D i).lhs.eval a := Iff.rfl
  rw [h, tonnageDevB_rhs_eval, show (tonnageDevB D i).lhs = uVarE m i from rfl, uVarE_eval]

lemma revenueDevA_holds_iff (D : Dataset m n) (a : Assignment n m) (i : Fin n) :
    constrHolds a (revenueDevA D i) ↔ rowRev D a i - q D i ≤ a.v i := by
  have h : constrHolds a (revenueDevA D i) ↔
      (revenueDevA D i).rhs.eval a ≤ (revenueDevA D i).lhs.eval a := Iff.rfl
  rw [h, revenueDevA_rhs_eval, show (revenueDevA D i).lhs = vVarE m i from rfl, vVarE_eval]

lemma revenueDevB_holds_iff (D : Dataset m n) (a : Assignment n m) (i : Fin n) :
    constrHolds a (revenueDevB D i) ↔ q D i - rowRev D a i ≤ a.v i := by
  have h : constrHolds a (revenueDevB D i) ↔
      (revenueDevB D i).rhs.eval a ≤ (revenueDevB D i).lhs.eval a := Iff.rfl
  rw [h, revenueDevB_rhs_eval, show (revenueDevB D i).lhs = vVarE m i from rfl, vVarE_eval]

/-! ### Membership of each constraint family in the built model -/

lemma coverage_mem (D : Dataset m n) (j : Fin m) :
    coverageConstraint D j ∈ (prob D).constraints := by
  simp only [prob, List.mem_append]
  exact Or.inl (Or.inl (Or.inl (List.mem_map_of_mem _ (List.mem_finRange j))))

lemma upperLink_mem (D : Dataset m n) (i : Fin n) (j : Fin m) :
    upperLink i j ∈ (prob D).constraints := by
  simp only [prob, List.mem_append]
  refine Or.inl (Or.inl (Or.inr ?_))
  rw [List.mem_flatMap]
  exact ⟨i, List.mem_finRange i, by
    rw [List.mem_flatMap]
    exact ⟨j, List.mem_finRange j, by simp⟩⟩

lemma lowerLink_mem (D : Dataset m n) (i : Fin n) (j : Fin m) :
    lowerLink i j ∈ (prob D).constraints := by
  simp only [prob, List.mem_append]
  refine Or.inl (Or.inl (Or.inr ?_))
  rw [List.mem_flatMap]
  exact ⟨i, List.mem_finRange i, by
    rw [List.mem_flatMap]
    exact ⟨j, List.mem_finRange j, by simp⟩⟩

lemma tonnageDevA_mem (D : Dataset m n) (i : Fin n) :
    tonnageDevA D i ∈ (prob D).constraints := by
  simp only [prob, List.mem_append]
  refine Or.inl (Or.inr ?_)
  rw [List.mem_flatMap]
  exact ⟨i, List.mem_finRange i, by simp⟩

lemma tonnageDevB_mem (D : Dataset m n) (i : Fin n) :
    tonnageDevB D i ∈ (prob D).constraints := by
  simp only [prob, List.mem_append]
  refine Or.inl (Or.inr ?_)
  rw [List.mem_flatMap]
  exact ⟨i, List.mem_finRange i, by simp⟩

lemma revenueDevA_mem (D : Dataset m n) (i : Fin n) :
    revenueDevA D i ∈ (prob D).constraints := by
  simp only [prob, List.mem_append]
  refine Or.inr ?_
  rw [List.mem_flatMap]
  exact ⟨i, List.mem_finRange i, by simp⟩

lemma revenueDevB_mem (D : Dataset m n) (i : Fin n) :
    revenueDevB D i ∈ (prob D).constraints := by
  simp only [prob, List.mem_append]
  refine Or.inr ?_
  rw [List.mem_flatMap]
  exact ⟨i, List.mem_finRange i, by simp⟩

/-! ### The feasibility bridge -/

/-- Feasibility of the built model, unfolded into the semantic conditions
of the four constraint families plus the declaration bounds. -/
lemma feasible_iff (D : Dataset m n) (a : Assignment n m) :
    Feasible D a ↔
      VarBounds a
        ∧ (∀ j, colSum a j = D.S j)
        ∧ (∀ i j, a.x i j ≤ maxPerAssignment * a.y i j)
        ∧ (∀ i j, minPerAssignment * a.y i j ≤ a.x i j)
        ∧ (∀ i, rowTons a i - t D i ≤ a.u i ∧ t D i - rowTons a i ≤ a.u i)
        ∧ (∀ i, rowRev D a i - q D i ≤ a.v i ∧ q D i - rowRev D a i ≤ a.v i) := by
  constructor
  · rintro ⟨hb, hc⟩
    refine ⟨hb, ?_, ?_, ?_, ?_, ?_⟩
    · intro j
      exact (coverage_holds_iff D a j).mp (hc _ (coverage_mem D j))
    · intro i j
      exact (upperLink_holds_iff a i j).mp (hc _ (upperLink_mem D i j))
    · intro i j
      exact (lowerLink_holds_iff a i j).mp (hc _ (lowerLink_mem D i j))
    · intro i
      exact ⟨(tonnageDevA_holds_iff D a i).mp (hc _ (tonnageDevA_mem D i)),
        (tonnageDevB_holds_iff D a i).mp (hc _ (tonnageDevB_mem D i))⟩
    · intro i
      exact ⟨(revenueDevA_holds_iff D a i).mp (hc _ (revenueDevA_mem D i)),
        (revenueDevB_holds_iff D a i).mp (hc _ (revenueDevB_mem D i))⟩
  · rintro ⟨hb, hcov, hup, hlo, htu, hrv⟩
    refine ⟨hb, ?_⟩
    intro C hC
    simp only [prob, List.mem_append, List.mem_map, List.mem_flatMap,
      List.mem_cons, List.mem_singleton, List.not_mem_nil, or_false] at hC
    rcases hC with ((⟨j, _, rfl⟩ | ⟨i, _, j, _, hC⟩) | ⟨i, _, hC⟩) | ⟨i, _, hC⟩
    · exact (coverage_holds_iff D a j).mpr (hcov j)
    · rcases hC with rfl | rfl
      · exact (upperLink_holds_iff a i j).mpr (hup i j)
      · exact (lowerLink_holds_iff a i j).mpr (hlo i j)
    · rcases hC with rfl | rfl
      · exact (tonnageDevA_holds_iff D a i).mpr (htu i).1
      · exact (tonnageDevB_holds_iff D a i).mpr (htu i).2
    · rcases hC with rfl | rfl
      · exact (revenueDevA_holds_iff D a i).mpr (hrv i).1
      · exact (revenueDevB_holds_iff D a i).mpr (hrv i).2

/-! ### Objective value -/

/-- The objective of the built model evaluates to
`alpha * Σ_i u[i] + beta * Σ_i v[i]` (line 62). -/
lemma objVal_eq (D : Dataset m n) (a : Assignment n m) :
    objVal D a = alpha * (∑ i, a.u i) + beta * (∑ i, a.v i) := by
  simp only [objVal, prob, objectiveE, LinExpr.eval, List.map_append, List.map_map,
    Function.comp_def, evalVar, List.sum_append, add_zero]
  rw [list_map_sum n (fun i => alpha * a.u i), list_map_sum n (fun i => beta * a.v i),
    Finset.mul_sum, Finset.mul_sum]

/-- Any feasible assignment has nonnegative objective value: the deviation
variables are declared nonnegative and both weights are positive. -/
lemma objVal_nonneg (D : Dataset m n) (a : Assignment n m) (h : Feasible D a) :
    0 ≤ objVal D a := by
  obtain ⟨⟨-, -, hu, hv⟩, -⟩ := h
  rw [objVal_eq]
  have h1 : (0 : ℚ) ≤ ∑ i, a.u i := Finset.sum_nonneg (fun i _ => hu i)
  have h2 : (0 : ℚ) ≤ ∑ i, a.v i := Finset.sum_nonneg (fun i _ => hv i)
  have ha : (0 : ℚ) ≤ alpha := by norm_num [alpha]
  have hb : (0 : ℚ) ≤ beta := by norm_num [beta]
  positivity

/-! ### At an optimum the deviation variables are tight -/

/-- Exchange argument for the tonnage deviation: at any optimal solution,
`u[i]` equals the absolute tonnage deviation of transporter `i`.  The
two-sided constraints force `u[i] ≥ |Σ_j x[i][j] − t[i]|`, and replacing a
slack `u[i]` with the absolute value itself stays feasible and strictly
lowers the objective since `alpha = 1 > 0`. -/
lemma optimal_u_eq (D : Dataset m n) (a : Assignment n m) (h : Optimal D a)
    (i : Fin n) : a.u i = |rowTons a i - t D i| := by
  obtain ⟨hf, hmin⟩ := h
  obtain ⟨⟨hbx, hby, hbu, hbv⟩, hcov, hup, hlo, htu, hrv⟩ := (feasible_iff D a).mp hf
  have hge : |rowTons a i - t D i| ≤ a.u i :=
    abs_le.mpr ⟨by linarith [(htu i).2], (htu i).1⟩
  by_contra hne
  have hlt : |rowTons a i - t D i| < a.u i := lt_of_le_of_ne hge (fun hc => hne hc.symm)
  refine absurd (hmin ⟨a.x, a.y, Function.update a.u i |rowTons a i - t D i|, a.v⟩ ?_)
    (not_le.mpr ?_)
  · rw [feasible_iff]
    refine ⟨⟨hbx, hby, ?_, hbv⟩, hcov, hup, hlo, ?_, hrv⟩
    · intro k
      show (0 : ℚ) ≤ Function.update a.u i |rowTons a i - t D i| k
      by_cases hk : k = i
      · subst hk; rw [Function.update_same]; exact abs_nonneg _
      · rw [Function.update_noteq hk]; exact hbu k
    · intro k
      show rowTons a k - t D k ≤ Function.update a.u i |rowTons a i - t D i| k
        ∧ t D k - rowTons a k ≤ Function.update a.u i |rowTons a i - t D i| k
      by_cases hk : k = i
      · subst hk
        rw [Function.update_same]
        refine ⟨le_abs_self _, ?_⟩
        have hn : -(rowTons a k - t D k) ≤ |rowTons a k - t D k| := neg_le_abs _
        linarith
      · rw [Function.update_noteq hk]; exact htu k
  · rw [objVal_eq, objVal_eq]
    have hsum : (∑ k, Function.update a.u i |rowTons a i - t D i| k)
        = |rowTons a i - t D i| + ∑ k in Finset.univ \ {i}, a.u k :=
      Finset.sum_update_of_mem (Finset.mem_univ i) a.u _
    have hsa : (∑ k, a.u k) = a.u i + ∑ k in Finset.univ \ {i}, a.u k := by
      rw [Finset.sdiff_singleton_eq_erase, ← Finset.add_sum_erase _ _ (Finset.mem_univ i)]
    show alpha * (∑ k, Function.update a.u i |rowTons a i - t D i| k) + beta * (∑ k, a.v k)
      < alpha * (∑ k, a.u k) + beta * (∑ k, a.v k)
    rw [hsum, hsa]
    have halpha : (0 : ℚ) < alpha := by norm_num [alpha]
    nlinarith [hlt]

/-- Exchange argument for the revenue deviation: at any optimal solution,
`v[i]` equals the absolute revenue deviation of transporter `i`, since
`beta = 0.001 > 0`. -/
lemma optimal_v_eq (D : Dataset m n) (a : Assignment n m) (h : Optimal D a)
    (i : Fin n) : a.v i = |rowRev D a i - q D i| := by
  obtain ⟨hf, hmin⟩ := h
  obtain ⟨⟨hbx, hby, hbu, hbv⟩, hcov, hup, hlo, htu, hrv⟩ := (feasible_iff D a).mp hf
  have hge : |rowRev D a i - q D i| ≤ a.v i :=
    abs_le.mpr ⟨by linarith [(hrv i).2], (hrv i).1⟩
  by_contra hne
  have hlt : |rowRev D a i - q D i| < a.v i := lt_of_le_of_ne hge (fun hc => hne hc.symm)
  refine absurd (hmin ⟨a.x, a.y, a.u, Function.update a.v i |rowRev D a i - q D i|⟩ ?_)
    (not_le.mpr ?_)
  · rw [feasible_iff]
    refine ⟨⟨hbx, hby, hbu, ?_⟩, hcov, hup, hlo, htu, ?_⟩
    · intro k
      show (0 : ℚ) ≤ Function.update a.v i |rowRev D a i - q D i| k
      by_cases hk : k = i
      · subst hk; rw [Function.update_same]; exact abs_nonneg _
      · rw [Function.update_noteq hk]; exact hbv k
    · intro k
      show rowRev D a k - q D k ≤ Function.update a.v i |rowRev D a i - q D i| k
        ∧ q D k - rowRev D a k ≤ Function.update a.v i |rowRev D a i - q D i| k
      by_cases hk : k = i
      · subst hk
        rw [Function.update_same]
        refine ⟨le_abs_self _, ?_⟩
        have hn : -(rowRev D a k - q D k) ≤ |rowRev D a k - q D k| := neg_le_abs _
        linarith
      · rw [Function.update_noteq hk]; exact hrv k
  · rw [objVal_eq, objVal_eq]
    have hsum : (∑ k, Function.update a.v i |rowRev D a i - q D i| k)
        = |rowRev D a i - q D i| + ∑ k in Finset.univ \ {i}, a.v k :=
      Finset.sum_update_of_mem (Finset.mem_univ i) a.v _
    have hsa : (∑ k, a.v k) = a.v i + ∑ k in Finset.univ \ {i}, a.v k := by
      rw [Finset.sdiff_singleton_eq_erase, ← Finset.add_sum_erase _ _ (Finset.mem_univ i)]
    show alpha * (∑ k, a.u k) + beta * (∑ k, Function.update a.v i |rowRev D a i - q D i| k)
      < alpha * (∑ k, a.u k) + beta * (∑ k, a.v k)
    rw [hsum, hsa]
    have hbeta : (0 : ℚ) < beta := by norm_num [beta]
    nlinarith [hlt]

/-! ### Concrete demonstration data -/

/-- Demonstration dataset: one site of demand 10 at rate 2, one transporter
of quota 1. -/
def Dex : Dataset 1 1 := ⟨fun _ => 10, fun _ => 2, fun _ => 1⟩

/-- Assignment serving `Dex` exactly: `x = 10`, `y = 1`, `u = v = 0`. -/
def aex : Assignment 1 1 := ⟨fun _ _ => 10, fun _ _ => 1, fun _ => 0, fun _ => 0⟩

lemma aex_feasible : Feasible Dex aex := by
  rw [feasible_iff]
  refine ⟨⟨?_, ?_, ?_, ?_⟩, ?_, ?_, ?_, ?_, ?_⟩ <;> intros <;>
    norm_num [Dex, aex, colSum, rowTons, rowRev, t, q, T, R, list_map_sum,
      minPerAssignment, maxPerAssignment, Fin.sum_univ_one]

lemma aex_objVal : objVal Dex aex = 0 := by
  rw [objVal_eq]
  norm_num [aex, Fin.sum_univ_one]

lemma aex_optimal : Optimal Dex aex :=
  ⟨aex_feasible, fun b hb => by rw [aex_objVal]; exact objVal_nonneg Dex b hb⟩

/-- Dataset whose total demand (100) exceeds `n * maxPerAssignment = 50`
for its single transporter, yet which is feasible: two sites of demand 50. -/
def Dover : Dataset 2 1 := ⟨fun _ => 50, fun _ => 1, fun _ => 1⟩

/-- Feasible assignment for `Dover`: the single transporter takes all 50
tons of each site. -/
def aOver : Assignment 1 2 := ⟨fun _ _ => 50, fun _ _ => 1, fun _ => 0, fun _ => 0⟩

lemma aOver_feasible : Feasible Dover aOver := by
  rw [feasible_iff]
  refine ⟨⟨?_, ?_, ?_, ?_⟩, ?_, ?_, ?_, ?_, ?_⟩ <;> intros <;>
    norm_num [Dover, aOver, colSum, rowTons, rowRev, t, q, T, R, list_map_sum,
      minPerAssignment, maxPerAssignment, Fin.sum_univ_one, Fin.sum_univ_two]

/-- Dataset with a single zero-demand site. -/
def Dzero : Dataset 1 1 := ⟨fun _ => 0, fun _ => 1, fun _ => 1⟩

/-- All-zero assignment for `Dzero`. -/
def aZero : Assignment 1 1 := ⟨fun _ _ => 0, fun _ _ => 0, fun _ => 0, fun _ => 0⟩

lemma aZero_feasible : Feasible Dzero aZero := by
  rw [feasible_iff]
  refine ⟨⟨?_, ?_, ?_, ?_⟩, ?_, ?_, ?_, ?_, ?_⟩ <;> intros <;>
    norm_num [Dzero, aZero, colSum, rowTons, rowRev, t, q, T, R, list_map_sum,
      minPerAssignment, maxPerAssignment, Fin.sum_univ_one]

/-- Dataset with a negative demand, which the spec calls malformed. -/
def Dneg : Dataset 1 1 := ⟨fun _ => -1, fun _ => 1, fun _ => 1⟩

/-- Raw solver values with one entry equal to `1e-9`: nonzero but within
`eps = 1e-6` of zero. -/
def rawTiny : Fin 1 → Fin 1 → ℚ := fun _ _ => 1 / 1000000000

/-- Rates for the tiny-raw extraction example. -/
def ratesTiny : Fin 1 → ℚ := fun _ => 1

/-! ### Claim theorems -/

/-- C1: for every site `j`, the model built from the dataset contains the
exact-equality demand-coverage constraint `Σ_i x[i][j] = S[j]` (line 39),
so every feasible assignment of the model serves all demand at every site
exactly. -/
theorem c1_demand_coverage (D : Dataset m n) :
    (∀ j, coverageConstraint D j ∈ (prob D).constraints)
    ∧ ∀ a : Assignment n m, Feasible D a → ∀ j, colSum a j = D.S j :=
  ⟨coverage_mem D, fun a ha j => ((feasible_iff D a).mp ha).2.1 j⟩

/-- Witness for C1 on the concrete dataset `Dex` and the feasible
assignment `aex`. -/
theorem c1_demand_coverage_witness :
    Feasible Dex aex ∧ colSum aex 0 = Dex.S 0 :=
  ⟨aex_feasible, (c1_demand_coverage Dex).2 aex aex_feasible 0⟩

/-- C2: for every pair `(i,j)` the model contains the linking constraints
`x[i][j] ≤ maxPerAssignment * y[i][j]` and
`x[i][j] ≥ minPerAssignment * y[i][j]` (lines 44-45, with the hardcoded
values 50 and 10), `y[i][j]` is binary, and in every feasible assignment
`x[i][j]` is either exactly 0 or lies in
`[minPerAssignment, maxPerAssignment]`, with `y[i][j] = 1 ↔ x[i][j] > 0`. -/
theorem c2_linking_semicontinuity (D : Dataset m n) :
    (∀ (i : Fin n) (j : Fin m),
      upperLink i j ∈ (prob D).constraints ∧ lowerLink i j ∈ (prob D).constraints)
    ∧ ∀ a : Assignment n m, Feasible D a → ∀ i j,
        (a.y i j = 0 ∨ a.y i j = 1)
        ∧ (a.x i j = 0 ∨ (minPerAssignment ≤ a.x i j ∧ a.x i j ≤ maxPerAssignment))
        ∧ (a.y i j = 1 ↔ 0 < a.x i j) := by
  refine ⟨fun i j => ⟨upperLink_mem D i j, lowerLink_mem D i j⟩, fun a ha i j => ?_⟩
  obtain ⟨⟨hbx, hby, -, -⟩, -, hup, hlo, -, -⟩ := (feasible_iff D a).mp ha
  rcases hby i j with hy | hy
  · have hx0 : a.x i j = 0 := by
      have h1 := hup i j
      rw [hy, mul_zero] at h1
      exact le_antisymm h1 (hbx i j)
    refine ⟨Or.inl hy, Or.inl hx0, ?_⟩
    rw [hy, hx0]
    norm_num
  · have h1 := hup i j
    have h2 := hlo i j
    rw [hy, mul_one] at h1 h2
    refine ⟨Or.inr hy, Or.inr ⟨h2, h1⟩, ?_⟩
    rw [hy]
    simp only [true_iff]
    have : (0 : ℚ) < minPerAssignment := by norm_num [minPerAssignment]
    linarith

/-- Witness for C2 on the concrete dataset `Dex` and the feasible
assignment `aex`. -/
theorem c2_linking_semicontinuity_witness :
    Feasible Dex aex
    ∧ (aex.x 0 0 = 0 ∨ (minPerAssignment ≤ aex.x 0 0 ∧ aex.x 0 0 ≤ maxPerAssignment))
    ∧ (aex.y 0 0 = 1 ↔ 0 < aex.x 0 0) := by
  have h := (c2_linking_semicontinuity Dex).2 aex aex_feasible 0 0
  exact ⟨aex_feasible, h.2.1, h.2.2⟩

/-- C3: for every transporter `i` the model contains the two-inequality
absolute-value linearizations `u[i] ≥ Σ_j x[i][j] − t[i]`,
`u[i] ≥ −(Σ_j x[i][j] − t[i])` (lines 50-51) and the analogous pair for
`v[i]` against the revenue target (lines 56-57); at any optimal solution
`u[i] = |assignedTons_i − t[i]|` and `v[i] = |assignedRevenue_i − q[i]|`. -/
theorem c3_deviation_linearization (D : Dataset m n) :
    (∀ i, tonnageDevA D i ∈ (prob D).constraints
      ∧ tonnageDevB D i ∈ (prob D).constraints
      ∧ revenueDevA D i ∈ (prob D).constraints
      ∧ revenueDevB D i ∈ (prob D).constraints)
    ∧ ∀ a : Assignment n m, Optimal D a →
        ∀ i, a.u i = |rowTons a i - t D i| ∧ a.v i = |rowRev D a i - q D i| :=
  ⟨fun i => ⟨tonnageDevA_mem D i, tonnageDevB_mem D i,
      revenueDevA_mem D i, revenueDevB_mem D i⟩,
    fun a ha i => ⟨optimal_u_eq D a ha i, optimal_v_eq D a ha i⟩⟩

/-- Witness for C3 on the concrete dataset `Dex`, whose assignment `aex`
attains objective value 0 and is therefore optimal. -/
theorem c3_deviation_linearization_witness :
    Optimal Dex aex
    ∧ aex.u 0 = |rowTons aex 0 - t Dex 0|
    ∧ aex.v 0 = |rowRev Dex aex 0 - q Dex 0| := by
  have h := (c3_deviation_linearization Dex).2 aex aex_optimal 0
  exact ⟨aex_optimal, h.1, h.2⟩

/-- C4 counterexample: the claim says extraction clamps any raw value
within `eps` of zero to exactly zero; but the extraction of lines 68-70
copies the raw value through unchanged, so the value `1e-9` (within
`eps = 1e-6` of zero) remains nonzero in `x_sol`. -/
theorem c4_no_clamping_counterexample :
    |rawTiny 0 0| ≤ eps ∧ (extract ratesTiny rawTiny).x_sol 0 0 ≠ 0 := by
  constructor
  · show |(1 : ℚ) / 1000000000| ≤ eps
    rw [abs_of_nonneg (by norm_num : (0 : ℚ) ≤ 1 / 1000000000)]
    norm_num [eps]
  · norm_num [rawTiny, extract]

/-- C4 (amended): extraction reassembles `x_sol[i][j]` directly from the
raw variable values without any clamping, and recomputes
`tons_assigned[i] = Σ_j x_sol[i][j]` and
`revenue_assigned[i] = Σ_j r[j]·x_sol[i][j]` from the matrix; no
semi-continuity verification and no reconciliation failure path exists in
the source. -/
theorem c4_extraction_amended (rates : Fin m → ℚ) (raw : Fin n → Fin m → ℚ) :
    (∀ i j, (extract rates raw).x_sol i j = raw i j)
    ∧ (∀ i, (extract rates raw).tons_assigned i = ∑ j, (extract rates raw).x_sol i j)
    ∧ (∀ i, (extract rates raw).revenue_assigned i
        = ∑ j, rates j * (extract rates raw).x_sol i j) := by
  refine ⟨fun i j => rfl, fun i => ?_, fun i => ?_⟩
  · simp [extract, list_map_sum]
  · simp [extract, list_map_sum, mul_comm]

/-- C5 counterexample: the claim says model building fails with
`ValidationError` whenever some demand is negative; but the script builds
the model unconditionally — for the dataset `Dneg` with demand `-1` the
build succeeds and the negative demand flows into the coverage
constraint. -/
theorem c5_no_validation_counterexample :
    Dneg.S 0 < 0 ∧ build Dneg = BuildOutcome.built (prob Dneg)
    ∧ coverageConstraint Dneg 0 ∈ (prob Dneg).constraints :=
  ⟨by norm_num [Dneg], rfl, coverage_mem Dneg 0⟩

/-- C5 (amended): model building performs no validation at all — for every
dataset, including malformed ones, the build step unconditionally yields
the built model and never a `ValidationError`. -/
theorem c5_build_unconditional_amended (D : Dataset m n) :
    build D = BuildOutcome.built (prob D)
    ∧ build D ≠ BuildOutcome.validationError :=
  ⟨rfl, fun h => BuildOutcome.noConfusion h⟩

/-- C6 counterexample: the claim says any dataset with total demand above
`n * maxPerAssignment` must yield `InfeasibleError`; but `Dover` has total
demand 100 > 1 * 50 and nevertheless admits the feasible assignment
`aOver` (capacity is per transporter-site pair, not per transporter), so a
correct solver returns a solution and no infeasibility arises. -/
theorem c6_aggregate_infeasibility_counterexample :
    T Dover > (1 : ℚ) * maxPerAssignment ∧ Feasible Dover aOver := by
  refine ⟨?_, aOver_feasible⟩
  norm_num [T, Dover, list_map_sum, Fin.sum_univ_two, maxPerAssignment]

/-- C6 (amended): the quantity bounded by aggregated capacity is each
single site's demand: any feasible assignment forces
`S[j] ≤ n * maxPerAssignment` for every site `j` (so a site demand above
`n * maxPerAssignment` makes the model infeasible); and the script never
raises an infeasibility error — after `prob.solve` it proceeds to
extraction unconditionally, whatever status the solver reports. -/
theorem c6_per_site_capacity_amended (D : Dataset m n) (a : Assignment n m)
    (h : Feasible D a) :
    (∀ j, D.S j ≤ (n : ℚ) * maxPerAssignment)
    ∧ ∀ (st : SolverStatus) (raw : Fin n → Fin m → ℚ),
        afterSolve D st raw = extract D.r raw := by
  obtain ⟨⟨hbx, hby, -, -⟩, hcov, hup, hlo, -, -⟩ := (feasible_iff D a).mp h
  refine ⟨fun j => ?_, fun st raw => rfl⟩
  have hcs := hcov j
  rw [colSum, list_map_sum] at hcs
  have hle : ∀ i, a.x i j ≤ maxPerAssignment := by
    intro i
    rcases hby i j with h0 | h1
    · have h2 := hup i j
      rw [h0, mul_zero] at h2
      have : (0 : ℚ) ≤ maxPerAssignment := by norm_num [maxPerAssignment]
      linarith
    · have h2 := hup i j
      rw [h1, mul_one] at h2
      exact h2
  calc D.S j = ∑ i, a.x i j := hcs.symm
    _ ≤ ∑ _i : Fin n, maxPerAssignment := Finset.sum_le_sum (fun i _ => hle i)
    _ = (n : ℚ) * maxPerAssignment := by
        rw [Finset.sum_const, Finset.card_univ, Fintype.card_fin, nsmul_eq_mul]

/-- Witness for C6 (amended) on the concrete dataset `Dex` and the
feasible assignment `aex`. -/
theorem c6_per_site_capacity_amended_witness :
    Feasible Dex aex ∧ Dex.S 0 ≤ (1 : ℚ) * maxPerAssignment :=
  ⟨aex_feasible, (c6_per_site_capacity_amended Dex aex aex_feasible).1 0⟩

/-- C7 counterexample: the claim says the indicators of a zero-demand site
may take either value 0 or 1 in a feasible assignment; on `Dzero` (demand
0) the value 0 is attainable (`aZero`), but no feasible assignment has
`y = 1` at the zero-demand site, because the lower linking constraint
would force `x ≥ minPerAssignment = 10` there while coverage forces
`x = 0`. -/
theorem c7_zero_demand_indicator_counterexample :
    Dzero.S 0 = 0
    ∧ (∃ a : Assignment 1 1, Feasible Dzero a ∧ a.y 0 0 = 0)
    ∧ ¬ ∃ a : Assignment 1 1, Feasible Dzero a ∧ a.y 0 0 = 1 := by
  refine ⟨rfl, ⟨aZero, aZero_feasible, rfl⟩, ?_⟩
  rintro ⟨a, ha, hy⟩
  obtain ⟨⟨hbx, hby, -, -⟩, hcov, hup, hlo, -, -⟩ := (feasible_iff Dzero a).mp ha
  have hcs := hcov 0
  rw [colSum, list_map_sum, Fin.sum_univ_one] at hcs
  have hlo0 := hlo 0 0
  rw [hy, mul_one] at hlo0
  rw [hcs] at hlo0
  norm_num [minPerAssignment, Dzero] at hlo0

/-- C7 (amended): a site `j` with `S[j] = 0` forces `x[i][j] = 0` for all
`i` via the coverage constraint and the nonnegativity bound, and — because
`minPerAssignment = 10 > 0` in the lower linking constraint — also forces
`y[i][j] = 0` for all `i`. -/
theorem c7_zero_demand_amended (D : Dataset m n) (a : Assignment n m)
    (h : Feasible D a) (j : Fin m) (hj : D.S j = 0) :
    ∀ i, a.x i j = 0 ∧ a.y i j = 0 := by
  obtain ⟨⟨hbx, hby, -, -⟩, hcov, hup, hlo, -, -⟩ := (feasible_iff D a).mp h
  have hcs := hcov j
  rw [colSum, list_map_sum, hj] at hcs
  have hx0 : ∀ i, a.x i j = 0 := by
    have hz := (Finset.sum_eq_zero_iff_of_nonneg (fun i _ => hbx i j)).mp hcs
    exact fun i => hz i (Finset.mem_univ i)
  intro i
  refine ⟨hx0 i, ?_⟩
  rcases hby i j with h0 | h1
  · exact h0
  · exfalso
    have h2 := hlo i j
    rw [h1, mul_one, hx0 i] at h2
    norm_num [minPerAssignment] at h2

/-- Witness for C7 (amended) on the concrete zero-demand dataset `Dzero`
and the feasible assignment `aZero`. -/
theorem c7_zero_demand_amended_witness :
    Feasible Dzero aZero ∧ Dzero.S 0 = 0 ∧ aZero.x 0 0 = 0 ∧ aZero.y 0 0 = 0 := by
  have h := c7_zero_demand_amended Dzero aZero aZero_feasible 0 rfl 0
  exact ⟨aZero_feasible, rfl, h.1, h.2⟩

/-- C8: the built model minimizes
`alpha * Σ_i u[i] + beta * Σ_i v[i]` (lines 24, 60-62), and the derived
targets satisfy `T = Σ_j S[j]`, `R = Σ_j S[j]·r[j]`, `t[i] = p[i]·T`,
`q[i] = p[i]·R` (lines 18-21). -/
theorem c8_objective_and_targets (D : Dataset m n) (a : Assignment n m) :
    (prob D).sense = Sense.minimize
    ∧ objVal D a = alpha * (∑ i, a.u i) + beta * (∑ i, a.v i)
    ∧ T D = ∑ j, D.S j
    ∧ R D = ∑ j, D.S j * D.r j
    ∧ (∀ i, t D i = D.p i * T D)
    ∧ (∀ i, q D i = D.p i * R D) :=
  ⟨rfl, objVal_eq D a, list_map_sum m D.S, list_map_sum m _,
    fun _ => rfl, fun _ => rfl⟩

/-- C9: solution extraction is deterministic — extracting from equal raw
variable values (with equal rates) yields identical results componentwise:
the same `x_sol` matrix, the same `tons_assigned` and the same
`revenue_assigned`. -/
theorem c9_extraction_deterministic (r1 r2 : Fin m → ℚ)
    (raw1 raw2 : Fin n → Fin m → ℚ)
    (hr : ∀ j, r1 j = r2 j) (hraw : ∀ i j, raw1 i j = raw2 i j) :
    (∀ i j, (extract r1 raw1).x_sol i j = (extract r2 raw2).x_sol i j)
    ∧ (∀ i, (extract r1 raw1).tons_assigned i = (extract r2 raw2).tons_assigned i)
    ∧ (∀ i, (extract r1 raw1).revenue_assigned i
        = (extract r2 raw2).revenue_assigned i) := by
  refine ⟨fun i j => hraw i j, fun i => ?_, fun i => ?_⟩
  · simp only [extract, list_map_sum]
    exact Finset.sum_congr rfl (fun j _ => hraw i j)
  · simp only [extract, list_map_sum]
    exact Finset.sum_congr rfl (fun j _ => by rw [hraw i j, hr j])

/-- Witness for C9: extracting twice from the same raw values yields the
same result. -/
theorem c9_extraction_deterministic_witness :
    (extract ratesTiny rawTiny).x_sol 0 0 = (extract ratesTiny rawTiny).x_sol 0 0
    ∧ (extract ratesTiny rawTiny).tons_assigned 0
        = (extract ratesTiny rawTiny).tons_assigned 0
    ∧ (extract ratesTiny rawTiny).revenue_assigned 0
        = (extract ratesTiny rawTiny).revenue_assigned 0 := by
  have h := c9_extraction_deterministic ratesTiny ratesTiny rawTiny rawTiny
    (fun _ => rfl) (fun _ _ => rfl)
  exact ⟨h.1 0 0, h.2.1 0, h.2.2 0⟩

/-- C10: conservation of total tonnage — for every feasible assignment the
total assigned over all transporters and sites equals total demand `T`,
and the per-transporter tons computed at extraction sum to `T`. -/
theorem c10_total_tonnage_conservation (D : Dataset m n) (a : Assignment n m)
    (h : Feasible D a) :
    (∑ i, ∑ j, a.x i j) = T D
    ∧ (∑ i, (extract D.r a.x).tons_assigned i) = T D := by
  have hcov := ((feasible_iff D a).mp h).2.1
  have hswap : (∑ i, ∑ j, a.x i j) = ∑ j, ∑ i : Fin n, a.x i j := Finset.sum_comm
  have hT : (∑ j, ∑ i : Fin n, a.x i j) = T D := by
    rw [T, list_map_sum]
    refine Finset.sum_congr rfl (fun j _ => ?_)
    have hc := hcov j
    rw [colSum, list_map_sum] at hc
    exact hc
  refine ⟨hswap.trans hT, ?_⟩
  have hext : ∀ i, (extract D.r a.x).tons_assigned i = ∑ j, a.x i j := by
    intro i
    simp [extract, list_map_sum]
  rw [Finset.sum_congr rfl (fun i _ => hext i)]
  exact hswap.trans hT

/-- Witness for C10 on the concrete dataset `Dex` and the feasible
assignment `aex`. -/
theorem c10_total_tonnage_conservation_witness :
    Feasible Dex aex ∧ (∑ i, (extract Dex.r aex.x).tons_assigned i) = T Dex :=
  ⟨aex_feasible, (c10_total_tonnage_conservation Dex aex aex_feasible).2⟩

end WFP
